import Mathlib

/-!
Verification of the real-time turn-taking core of the aura-voice-engine
repository against its specification.

The embedding models the client component `VoiceCallInterface.tsx`
(voice-activity detection, barge-in fade, TTS playback promise lifecycle,
transcription-result handling) and the server-side pure functions
`speechPlanner.ts` (`planSpeech`) and `updateEmotionalState`.

Modelling conventions:
* JS strings are `List Char` (`Str`); JS `trim` strips the ASCII whitespace
  relevant to this code base.
* Times are `Nat` milliseconds, as produced by `Date.now()`.
* Audio volumes are integer hundredths (100 = volume 1.0, the fade step
  0.15 is 15, the floor 0.1 is 10).  On the grid of values this code ever
  produces (1.0, 0.85, 0.70, 0.55, 0.40, 0.25, 0.10) exact decimal
  arithmetic and IEEE-754 double arithmetic take the same branch at every
  comparison, so the integer model is branch-faithful to the source.
* The loudness test `average > SILENCE_THRESHOLD_RMS * 255` on
  `average = sum / length` is embedded cross-multiplied over the integers:
  `1000 * sum > 14 * 255 * length` (0.014 = 14/1000).  For a zero-length
  buffer JS compares `NaN > 3.57 = false`, matching `0 > 0`.
* `Math.random()` draws are modelled as integer thousandths (0..999)
  supplied by an explicit stream `rand : Nat -> Nat`; `r > 0.85` becomes
  `850 < rand 0` and `Math.floor(r * n)` becomes `rand 1 * n / 1000`.
* The promise returned by `playTTS` is tracked by the `resolvedTTS` flag:
  it records whether the currently pending `playTTS` invocation has called
  `resolve`.
-/

namespace Aura

/-- ASCII whitespace, the subset of JS whitespace this code can meet. -/
def ws (c : Char) : Bool :=
  c == ' ' || c == '\t' || c == '\n' || c == '\r'

/-- A JS string, modelled as its list of characters. -/
abbrev Str := List Char

/-- Negation of `ws`, used to count visible characters. -/
def nonWs (c : Char) : Bool := !(ws c)

/-- JS `String.prototype.trim`: drop leading and trailing whitespace. -/
def trim (l : Str) : Str :=
  ((l.dropWhile ws).reverse.dropWhile ws).reverse

/- ===== speechPlanner.ts ===== -/

/-- Opening brackets of the stage-direction regex character class. -/
def isOpenB (c : Char) : Bool :=
  c == '(' || c == '[' || c == Char.ofNat 123

/-- Closing brackets of the stage-direction regex character class. -/
def isCloseB (c : Char) : Bool :=
  c == ')' || c == ']' || c == Char.ofNat 125

/-- Whether some closing bracket occurs in the rest of the input; the
regex keeps an opening bracket when no closer follows it. -/
def hasCloseB (l : Str) : Bool := l.any isCloseB

/-- Scanner for `.replace(/[\(\[\x7b].*?[\)\]\x7d]/gs, '')`: in mode
`true` we are inside a match and discard up to the first closing
bracket; in mode `false` an opening bracket starts a match only when a
closer follows (non-greedy match to the nearest closer, global flag). -/
def rbGo : Bool → Str → Str
  | _, [] => []
  | true, c :: rest => if isCloseB c then rbGo false rest else rbGo true rest
  | false, c :: rest =>
      if isOpenB c && hasCloseB rest then rbGo true rest
      else c :: rbGo false rest

/-- `.replace(/[\(\[\x7b].*?[\)\]\x7d]/gs, '')`. -/
def removeBrackets (l : Str) : Str := rbGo false l

/-- `.replace(/\*/g, '')`. -/
def removeStars (l : Str) : Str := l.filter (fun c => !(c == '*'))

/-- `.replace(/_/g, ' ')`. -/
def underscoreToSpace (l : Str) : Str :=
  l.map (fun c => if c == '_' then ' ' else c)

/-- `.replace(/#/g, '')`. -/
def removeHashes (l : Str) : Str := l.filter (fun c => !(c == '#'))

/-- Worker for `.replace(/\s+/g, ' ')`: the flag says whether the
previous character was part of a whitespace run already replaced. -/
def collapseWsAux : Bool → Str → Str
  | _, [] => []
  | prev, c :: rest =>
      if ws c then
        if prev then collapseWsAux true rest
        else ' ' :: collapseWsAux true rest
      else c :: collapseWsAux false rest

/-- `.replace(/\s+/g, ' ')`. -/
def collapseWs (l : Str) : Str := collapseWsAux false l

/-- The full cleaning pipeline producing the spoken text of `planSpeech`. -/
def cleanText (l : Str) : Str :=
  trim (collapseWs (removeHashes (underscoreToSpace (removeStars (removeBrackets l)))))

/-- The punctuation class of the split regex `/([.,?!])+/`. -/
def isPunct (c : Char) : Bool :=
  c == '.' || c == ',' || c == '?' || c == '!'

/-- Worker for JS `spoken.split(/([.,?!])+/)`.  Mode `none` accumulates a
text piece (in reverse); mode `some p` is inside a punctuation run whose
last character seen is `p` — the regex consumes the whole run but the
capture group retains only its last character, which `split` inserts
between the surrounding text pieces. -/
def splitGoM : Option Char → Str → Str → List Str
  | none, acc, [] => [acc.reverse]
  | none, acc, c :: rest =>
      if isPunct c then splitGoM (some c) acc rest
      else splitGoM none (c :: acc) rest
  | some p, acc, [] => acc.reverse :: [p] :: [[]]
  | some p, acc, c :: rest =>
      if isPunct c then splitGoM (some c) acc rest
      else acc.reverse :: [p] :: splitGoM none [c] rest

/-- JS `spoken.split(/([.,?!])+/)`. -/
def jsSplitPunct (l : Str) : List Str := splitGoM none [] l

/-- One entry of `SpeechPlan.segments`; `pace` is in hundredths
(95 = 0.95, 105 = 1.05), `pauseAfterMs` in milliseconds. -/
structure Segment where
  text : Str
  pauseAfterMs : Nat
  pace : Nat
deriving DecidableEq, Repr

/-- `const getPace = (index) => index === 0 ? 0.95 : 1.05`, in hundredths. -/
def getPace (i : Nat) : Nat := if i = 0 then 95 else 105

/-- The segment-building loop of `planSpeech` over the filtered split
pieces, carrying `currentSegment` and `segmentIndex`. -/
def segLoop (cur : Str) (idx : Nat) : List Str → List Segment
  | [] =>
      if 0 < (trim cur).length then
        [{ text := trim cur, pauseAfterMs := 0, pace := getPace idx }]
      else []
  | p :: rest =>
      if p = ['.'] ∨ p = ['?'] ∨ p = ['!'] then
        { text := trim (cur ++ p), pauseAfterMs := 600, pace := getPace idx }
          :: segLoop [] (idx + 1) rest
      else if p = [','] then
        { text := trim (cur ++ p), pauseAfterMs := 300, pace := getPace idx }
          :: segLoop [] (idx + 1) rest
      else segLoop (cur ++ p) idx rest

/-- The filler table; an unknown emotion falls back to the neutral list
(`fillers[currentEmotion] || fillers.neutral`). -/
def fillersFor (emotion : Str) : List Str :=
  if emotion = ("thoughtful".toList) then
    [("hmm...".toList), ("well...".toList), ("like...".toList)]
  else if emotion = ("playful".toList) then
    [("haha,".toList), ("wait,".toList), ("you know,".toList)]
  else if emotion = ("affectionate".toList) then
    [("hmm...".toList), ("acha,".toList)]
  else
    [("so,".toList), ("basically,".toList)]

/-- The result record of `planSpeech`. -/
structure SpeechPlan where
  originalText : Str
  spokenText : Str
  segments : List Segment
deriving DecidableEq, Repr

/-- `planSpeech(text, currentEmotion)` of `speechPlanner.ts`, with the
two `Math.random()` draws supplied as thousandths by `rand` (draw 0
decides the 15 percent filler injection, draw 1 picks the filler). -/
def planSpeech (text emotion : Str) (rand : Nat → Nat) : SpeechPlan :=
  let cleaned := cleanText text
  let fl := fillersFor emotion
  let spoken :=
    if 850 < rand 0 then fl.getD (rand 1 * fl.length / 1000) [] ++ [' '] ++ cleaned
    else cleaned
  let raw := (jsSplitPunct spoken).filter (fun p => 0 < (trim p).length)
  { originalText := text, spokenText := spoken, segments := segLoop [] 0 raw }

/-- Segment texts joined with single spaces. -/
def joinSpace (l : List Str) : Str := (l.intersperse [' ']).flatten

/- ===== VoiceCallInterface.tsx: VAD, barge-in fade, playback promise ===== -/

/-- The `uiPhase` react state. -/
inductive Phase
  | connecting
  | listening
  | transcribing
  | thinking
  | speaking
  | ended
deriving DecidableEq, Repr

/-- `SILENCE_DURATION = 650` ms of silence before stop + process. -/
def SILENCE_DURATION : Nat := 650

/-- `MIN_SPEECH_DURATION = 250` ms minimum speech before considering valid. -/
def MIN_SPEECH_DURATION : Nat := 250

/-- `MAX_RECORDING_MS = 12000`, the declared hard cap on recordings. -/
def MAX_RECORDING_MS : Nat := 12000

/-- `SILENCE_THRESHOLD_RMS = 0.014`, stored in thousandths. -/
def SILENCE_THRESHOLD_RMS_MILLI : Nat := 14

/-- The mutable refs and react state touched by the VAD frame callback
and the `playTTS` promise machinery.  `audioVolume = some v` models
`audioRef.current` holding an element at volume `v` hundredths;
`resolvedTTS` records whether the pending `playTTS` promise resolved. -/
structure CallState where
  speechStartTime : Option Nat
  lastSpeechTime : Nat
  isRecording : Bool
  isInterruption : Bool
  audioVolume : Option Nat
  uiPhase : Phase
  resolvedTTS : Bool
deriving DecidableEq, Repr

/-- One VAD frame: the `Date.now()` timestamp and the byte-frequency
magnitudes read from the analyser. -/
structure Frame where
  now : Nat
  bytes : List Nat
deriving DecidableEq, Repr

/-- `average > SILENCE_THRESHOLD_RMS * 255` with `average = sum / length`,
cross-multiplied over the integers. -/
def isSpeakingNow (f : Frame) : Bool :=
  decide (SILENCE_THRESHOLD_RMS_MILLI * 255 * f.bytes.length < 1000 * f.bytes.sum)

/-- Observable outputs of one `checkVoiceActivity` frame: an utterance
handed to processing (`stopRecording` fired), or the start of a
barge-in fade interval. -/
inductive VadEvent
  | utteranceComplete (startedAt endedAt : Nat)
  | fadeStart
deriving DecidableEq, Repr

/-- One invocation of `checkVoiceActivity` on a frame.  In the loud
branch a JS-falsy `speechStartTime` (null or 0) is overwritten with
`now`, `lastSpeechTime` is refreshed, and the barge-in fade starts when
audio is playing, no interruption is in progress, and the running speech
duration strictly exceeds `MIN_SPEECH_DURATION`.  In the silence branch,
with a truthy `speechStartTime`, silence strictly beyond
`SILENCE_DURATION` and recording active, the utterance completes only
when its duration strictly exceeds `MIN_SPEECH_DURATION`; otherwise the
state is left untouched (in particular `speechStartTime` is kept). -/
def vadStep (s : CallState) (f : Frame) : CallState × List VadEvent :=
  if isSpeakingNow f then
    let t0 :=
      match s.speechStartTime with
      | none => f.now
      | some 0 => f.now
      | some t => t
    let s1 := { s with speechStartTime := some t0, lastSpeechTime := f.now }
    if s1.audioVolume.isSome && !s.isInterruption
        && decide (MIN_SPEECH_DURATION < f.now - t0) then
      ({ s1 with isInterruption := true }, [VadEvent.fadeStart])
    else (s1, [])
  else
    match s.speechStartTime with
    | none => (s, [])
    | some t0 =>
        if t0 ≠ 0 ∧ SILENCE_DURATION < f.now - s.lastSpeechTime ∧ s.isRecording then
          if MIN_SPEECH_DURATION < s.lastSpeechTime - t0 then
            ({ s with speechStartTime := none, isRecording := false },
             [VadEvent.utteranceComplete t0 s.lastSpeechTime])
          else (s, [])
        else (s, [])

/-- Fold `vadStep` over a frame sequence, collecting the events. -/
def runVAD (s : CallState) (frames : List Frame) : CallState × List VadEvent :=
  frames.foldl (fun acc f =>
    let step := vadStep acc.1 f
    (step.1, acc.2 ++ step.2)) (s, [])

/-- One tick of the barge-in `setInterval` fade: subtract the 0.15 step
(clamped at 0 as `Math.max`), and when the result is at or below the 0.1
floor, pause the element, drop `audioRef`, and set the phase to
listening.  The promise flag is untouched: pausing never fires
`onended`, so `resolve` is not called on this path. -/
def fadeTick (s : CallState) : CallState :=
  match s.audioVolume with
  | none => s
  | some v =>
      let v1 := v - 15
      if v1 ≤ 10 then { s with audioVolume := none, uiPhase := Phase.listening }
      else { s with audioVolume := some v1 }

/-- The synchronous head of `playTTS`: an empty or whitespace-only text
resolves immediately and issues no TTS request (the returned `Bool` is
whether a request goes out). -/
def playTTSStart (text : Str) (s : CallState) : CallState × Bool :=
  if trim text = [] then ({ s with resolvedTTS := true }, false)
  else (s, true)

/-- Resumption of `playTTS` when the TTS response arrives: an already
set interruption flag resolves without playing; otherwise an audio
element at volume 1.0 starts and the phase becomes speaking. -/
def ttsResponseOk (s : CallState) : CallState :=
  if s.isInterruption then { s with resolvedTTS := true }
  else { s with audioVolume := some 100, uiPhase := Phase.speaking }

/-- The `catch` path of `playTTS` (synthesis request failed): resolve,
and return the phase to listening when the call is active and unmuted. -/
def ttsFailure (active muted : Bool) (s : CallState) : CallState :=
  { s with resolvedTTS := true,
           uiPhase := if active && !muted then Phase.listening else s.uiPhase }

/-- The `audio.onended` handler: drop the element, resolve, and return
to listening when active and unmuted. -/
def audioEnded (active muted : Bool) (s : CallState) : CallState :=
  { s with audioVolume := none, resolvedTTS := true,
           uiPhase := if active && !muted then Phase.listening else s.uiPhase }

/-- The `audio.onerror` handler, whose body is identical to `onended`. -/
def audioErrored (active muted : Bool) (s : CallState) : CallState :=
  audioEnded active muted s

/- ===== processUserAudio: transcription-result handling ===== -/

/-- The state touched by the transcription branch of `processUserAudio`:
the phase, the transcript (flag true marks a user entry), and
`isProcessingRef`. -/
structure TurnState where
  uiPhase : Phase
  transcript : List (Bool × Str)
  isProcessing : Bool
deriving DecidableEq, Repr

/-- `!sttData.text || sttData.text.trim().length < 2`: a missing or
JS-falsy (empty) text, or a trimmed length below 2. -/
def sttTooShort (text : Option Str) : Bool :=
  match text with
  | none => true
  | some t => t.isEmpty || decide ((trim t).length < 2)

/-- The transcription branch of `processUserAudio`: a too-short result
is discarded (phase back to listening, processing flag cleared, no
transcript entry, no response-generation request — the returned `Bool`);
otherwise the user message is recorded, the phase moves to thinking and
generation is invoked. -/
def processSTT (text : Option Str) (s : TurnState) : TurnState × Bool :=
  if sttTooShort text then
    ({ s with uiPhase := Phase.listening, isProcessing := false }, false)
  else
    ({ s with uiPhase := Phase.thinking,
              transcript := s.transcript ++ [(true, text.getD [])] }, true)

/- ===== voice-orchestrator: updateEmotionalState ===== -/

/-- The scalar part of a persisted `emotional_states` row (both columns
are REAL with CHECK constraints keeping them in [0,1], defaults 0.1 and
0.3). -/
structure EmotionalState where
  familiarity_score : ℚ
  attachment_level : ℚ
  current_emotion : Str

/-- `updateEmotionalState` of the voice-orchestrator function:
`Math.min(1, familiarity + 0.02)`, `Math.min(1, attachment + 0.01)`,
and an emotion override for detected happy or sad user emotion. -/
def updateEmotionalState (st : EmotionalState) (detected : Option Str) : EmotionalState :=
  { familiarity_score := min 1 (st.familiarity_score + 2/100)
    attachment_level := min 1 (st.attachment_level + 1/100)
    current_emotion :=
      if detected = some ("happy".toList) then ("joyful".toList)
      else if detected = some ("sad".toList) then ("caring".toList)
      else st.current_emotion }

/- ===== concrete states and traces used by the claim theorems ===== -/

/-- The state right after `startVADMonitoring` plus `startRecording`:
listening, recording, no pending audio, no interruption. -/
def s0 : CallState :=
  { speechStartTime := none, lastSpeechTime := 0, isRecording := true,
    isInterruption := false, audioVolume := none,
    uiPhase := Phase.listening, resolvedTTS := true }

/-- Mid-turn state awaiting a TTS response: the `playTTS` promise is
pending. -/
def sThinking : CallState :=
  { s0 with uiPhase := Phase.thinking, resolvedTTS := false }

/-- A loud frame (single magnitude 50, well over the 3.57 threshold). -/
def loudFrame (t : Nat) : Frame := { now := t, bytes := [50] }

/-- A silent frame (single magnitude 0). -/
def quietFrame (t : Nat) : Frame := { now := t, bytes := [0] }

/-- Assistant audio playing at full volume while the user has been
speaking since t=100 (last refreshed at t=400): the barge-in precondition. -/
def sPlaying : CallState :=
  { speechStartTime := some 100, lastSpeechTime := 400, isRecording := true,
    isInterruption := false, audioVolume := some 100,
    uiPhase := Phase.speaking, resolvedTTS := false }

/-- Thirteen seconds of uninterrupted loud frames at a 500 ms cadence
(t = 100 .. 13100). -/
def traceLoud13s : List Frame := (List.range 27).map (fun i => loudFrame (100 + i * 500))

/-- A 250 ms burst (loud 100..350), then silence past the 650 ms bound,
then a 100 ms burst (loud 1200..1300), then silence past the bound again. -/
def traceTwoBursts : List Frame :=
  [loudFrame 100, loudFrame 350, quietFrame 1100,
   loudFrame 1200, loudFrame 1300, quietFrame 2000, quietFrame 2100]

/-- A 300 ms burst (loud 100..400) followed by silence crossing the
650 ms bound at t = 1100. -/
def trace300ms : List Frame :=
  [loudFrame 100, loudFrame 200, loudFrame 300, loudFrame 400,
   quietFrame 500, quietFrame 800, quietFrame 1100, quietFrame 1200]

/-- The playing state after the barge-in fade interval has been armed
(the sticky interruption flag is set). -/
def sFading : CallState := { sPlaying with isInterruption := true }

/-- Another fading session at full volume, used for the ramp length. -/
def sRamp : CallState :=
  { sPlaying with lastSpeechTime := 500, isInterruption := true }

/-- The database default emotional-state row (familiarity 0.1,
attachment 0.3). -/
def st9 : EmotionalState :=
  { familiarity_score := 1/10, attachment_level := 3/10, current_emotion := [] }

/-- A zero draw stream: no filler is injected (0 is not above 850). -/
def rz : Nat → Nat := fun _ => 0

/-- The example input of the spec, as a character list. -/
def helloText : Str := "Hello, how are you?".toList

/- ===== helper lemmas about trim and the planner ===== -/

/-- The head surviving a `dropWhile p` does not satisfy `p`. -/
theorem dropWhileHeadFalse {α : Type} (p : α → Bool) :
    ∀ (l : List α) (c : α), (l.dropWhile p).head? = some c → p c = false := by
  intro l
  induction l with
  | nil => intro c h; simp [List.dropWhile] at h
  | cons a t ih =>
      intro c h
      rw [List.dropWhile_cons] at h
      by_cases hp : p a
      · rw [if_pos hp] at h; exact ih c h
      · rw [if_neg hp] at h
        simp only [List.head?_cons, Option.some.injEq] at h
        rw [← h]
        exact Bool.not_eq_true _ |>.mp hp

/-- `trim` gives the empty string exactly on all-whitespace input. -/
theorem trim_eq_nil_iff {l : Str} : trim l = [] ↔ ∀ c ∈ l, ws c = true := by
  unfold trim
  rw [List.reverse_eq_nil_iff, List.dropWhile_eq_nil_iff]
  constructor
  · intro h c hc
    rw [← List.takeWhile_append_dropWhile ws l] at hc
    rcases List.mem_append.mp hc with h1 | h2
    · exact List.mem_takeWhile_imp h1
    · exact h c (List.mem_reverse.mpr h2)
  · intro h x hx
    exact h x ((List.dropWhile_sublist ws).subset (List.mem_reverse.mp hx))

/-- A string with a visible character has a nonempty trim. -/
theorem trim_ne_nil_of_nonWs {l : Str} {c : Char} (hc : c ∈ l)
    (hw : nonWs c = true) : trim l ≠ [] := by
  intro h
  have := trim_eq_nil_iff.mp h c hc
  simp [nonWs, this] at hw

/-- A trimmed string of length at least two witnesses two visible
characters in the original string (its first and last characters are
non-whitespace, hence distinct occurrences). -/
theorem two_le_countP_of_trim {l : Str} (h : 2 ≤ (trim l).length) :
    2 ≤ l.countP nonWs := by
  have hlen : 2 ≤ ((l.dropWhile ws).reverse.dropWhile ws).length := by
    have : trim l = ((l.dropWhile ws).reverse.dropWhile ws).reverse := rfl
    rw [this, List.length_reverse] at h
    exact h
  rcases hB : (l.dropWhile ws).reverse.dropWhile ws with _ | ⟨c, B'⟩
  · rw [hB] at hlen; simp at hlen
  rcases hB2 : B' with _ | ⟨d, t⟩
  · rw [hB, hB2] at hlen; simp at hlen
  rw [hB2] at hB
  have hc : ws c = false := by
    refine dropWhileHeadFalse ws (l.dropWhile ws).reverse c ?_
    rw [hB]; rfl
  obtain ⟨a, hlastB⟩ : ∃ x, (c :: d :: t).getLast? = some x :=
    ⟨(c :: d :: t).getLast (by simp), List.getLast?_eq_getLast _ _⟩
  have hrevLast : (l.dropWhile ws).reverse.getLast? = some a := by
    rw [← List.takeWhile_append_dropWhile ws (l.dropWhile ws).reverse,
        List.getLast?_append, hB, hlastB]
    rfl
  have hheadA : (l.dropWhile ws).head? = some a := by
    rw [← List.getLast?_reverse]; exact hrevLast
  have hwa : ws a = false := dropWhileHeadFalse ws l a hheadA
  have hmem : a ∈ d :: t := by
    have h1 : (d :: t).getLast? = some a := by
      rw [← List.getLast?_cons_cons]; exact hlastB
    rw [List.getLast?_eq_getLast (d :: t) (by simp)] at h1
    simp only [Option.some.injEq] at h1
    rw [← h1]
    exact List.getLast_mem _
  have hcB : 2 ≤ (c :: d :: t).countP nonWs := by
    have h3 : 0 < (d :: t).countP nonWs :=
      List.countP_pos_iff.mpr ⟨a, hmem, by simp [nonWs, hwa]⟩
    rw [List.countP_cons]
    simp only [nonWs, hc, Bool.not_false, if_pos]
    omega
  have c1 : (c :: d :: t).countP nonWs ≤ (l.dropWhile ws).reverse.countP nonWs := by
    rw [← hB]
    exact (List.dropWhile_sublist ws).countP_le nonWs
  have c2 : (l.dropWhile ws).reverse.countP nonWs = (l.dropWhile ws).countP nonWs :=
    List.countP_reverse nonWs _
  have c3 : (l.dropWhile ws).countP nonWs ≤ l.countP nonWs :=
    (List.dropWhile_sublist ws).countP_le nonWs
  omega

/-- Punctuation characters of the split class are visible characters. -/
theorem punct_nonWs {c : Char} (h : isPunct c = true) : nonWs c = true := by
  rcases Bool.or_eq_true_iff.mp h with h1 | h1
  rcases Bool.or_eq_true_iff.mp h1 with h2 | h2
  rcases Bool.or_eq_true_iff.mp h2 with h3 | h3
  all_goals first
    | (rw [show c = '.' from beq_iff_eq.mp h3]; rfl)
    | (rw [show c = ',' from beq_iff_eq.mp h3]; rfl)
    | (rw [show c = '?' from beq_iff_eq.mp h2]; rfl)
    | (rw [show c = '!' from beq_iff_eq.mp h1]; rfl)

/-- If the accumulator, the remaining input, or a pending punctuation
capture holds a visible character, then some piece produced by the
split worker holds a visible character. -/
theorem splitGoM_has_nonWs :
    ∀ (l : Str) (m : Option Char) (acc : Str),
      ((∃ c ∈ acc, nonWs c = true) ∨ (∃ c ∈ l, nonWs c = true)
        ∨ (∃ p, m = some p ∧ isPunct p = true)) →
      ∃ piece ∈ splitGoM m acc l, ∃ c ∈ piece, nonWs c = true := by
  intro l
  induction l with
  | nil =>
      intro m acc h
      rcases m with _ | p
      · refine ⟨acc.reverse, by simp [splitGoM], ?_⟩
        rcases h with ⟨c, hc, hw⟩ | ⟨c, hc, _⟩ | ⟨p, hp, _⟩
        · exact ⟨c, List.mem_reverse.mpr hc, hw⟩
        · simp at hc
        · simp at hp
      · rcases h with ⟨c, hc, hw⟩ | ⟨c, hc, _⟩ | ⟨q, hq, hqp⟩
        · exact ⟨acc.reverse, by simp [splitGoM], c, List.mem_reverse.mpr hc, hw⟩
        · simp at hc
        · refine ⟨[p], by simp [splitGoM], p, by simp, ?_⟩
          cases hq
          exact punct_nonWs hqp
  | cons a rest ih =>
      intro m acc h
      rcases m with _ | p
      · by_cases hp : isPunct a
        · rw [show splitGoM none acc (a :: rest) = splitGoM (some a) acc rest by
            simp [splitGoM, hp]]
          exact ih (some a) acc (Or.inr (Or.inr ⟨a, rfl, hp⟩))
        · rw [show splitGoM none acc (a :: rest) = splitGoM none (a :: acc) rest by
            simp [splitGoM, hp]]
          refine ih none (a :: acc) ?_
          rcases h with ⟨c, hc, hw⟩ | ⟨c, hc, hw⟩ | ⟨q, hq, _⟩
          · exact Or.inl ⟨c, List.mem_cons_of_mem a hc, hw⟩
          · rcases List.mem_cons.mp hc with rfl | hc2
            · exact Or.inl ⟨c, List.mem_cons_self _ _, hw⟩
            · exact Or.inr (Or.inl ⟨c, hc2, hw⟩)
          · simp at hq
      · by_cases hp : isPunct a
        · rw [show splitGoM (some p) acc (a :: rest) = splitGoM (some a) acc rest by
            simp [splitGoM, hp]]
          exact ih (some a) acc (Or.inr (Or.inr ⟨a, rfl, hp⟩))
        · rw [show splitGoM (some p) acc (a :: rest)
              = acc.reverse :: [p] :: splitGoM none [a] rest by
            simp [splitGoM, hp]]
          rcases h with ⟨c, hc, hw⟩ | ⟨c, hc, hw⟩ | ⟨q, hq, hqp⟩
          · exact ⟨acc.reverse, by simp, c, List.mem_reverse.mpr hc, hw⟩
          · rcases List.mem_cons.mp hc with rfl | hc2
            · obtain ⟨piece, hpm, hpc⟩ :=
                ih none [c] (Or.inl ⟨c, by simp, hw⟩)
              exact ⟨piece, by simp [hpm], hpc⟩
            · obtain ⟨piece, hpm, hpc⟩ :=
                ih none [a] (Or.inr (Or.inl ⟨c, hc2, hw⟩))
              exact ⟨piece, by simp [hpm], hpc⟩
          · have hpq : q = p := by injection hq with h; exact h.symm
            subst hpq
            exact ⟨[q], by simp, q, by simp, punct_nonWs hqp⟩

/-- The segment loop produces at least one segment when a piece or the
running accumulator holds a visible character. -/
theorem segLoop_ne_nil :
    ∀ (parts : List Str) (cur : Str) (idx : Nat),
      ((∃ p ∈ parts, ∃ c ∈ p, nonWs c = true) ∨ (∃ c ∈ cur, nonWs c = true)) →
      segLoop cur idx parts ≠ [] := by
  intro parts
  induction parts with
  | nil =>
      intro cur idx h
      rcases h with ⟨p, hp, _⟩ | ⟨c, hc, hw⟩
      · simp at hp
      · have : trim cur ≠ [] := trim_ne_nil_of_nonWs hc hw
        have hpos : 0 < (trim cur).length := List.length_pos.mpr this
        simp [segLoop, hpos]
  | cons p rest ih =>
      intro cur idx h
      by_cases h1 : p = ['.'] ∨ p = ['?'] ∨ p = ['!']
      · simp [segLoop, h1]
      · by_cases h2 : p = [',']
        · simp [segLoop, h1, h2]
        · rw [show segLoop cur idx (p :: rest) = segLoop (cur ++ p) idx rest by
            simp [segLoop, h1, h2]]
          refine ih (cur ++ p) idx ?_
          rcases h with ⟨q, hq, c, hc, hw⟩ | ⟨c, hc, hw⟩
          · rcases List.mem_cons.mp hq with rfl | hq2
            · exact Or.inr ⟨c, List.mem_append_right _ hc, hw⟩
            · exact Or.inl ⟨q, hq2, c, hc, hw⟩
          · exact Or.inr ⟨c, List.mem_append_left _ hc, hw⟩

/- ===== claim theorems ===== -/

/-- C1: the spec requires the promise returned by `playTTS` to resolve on
every path.  The synthesis-failure, playback-ended, playback-error,
interrupted-before-play and empty-text paths all resolve, but the barge-in
fade path pauses the audio element and drops the reference without calling
`resolve`: pausing never fires `onended`, so once the fade reaches the
floor the promise is pending forever even though the session is released
and the phase is back to listening.  The awaiting `processUserAudio` call
then never reaches its `finally` block, so `isProcessingRef` stays true
and later turns are dropped. -/
theorem c1_bargeIn_fade_leaves_promise_pending :
    (vadStep sPlaying (loudFrame 500)).2 = [VadEvent.fadeStart]
    ∧ ((fadeTick^[6]) (vadStep sPlaying (loudFrame 500)).1).audioVolume = none
    ∧ ((fadeTick^[6]) (vadStep sPlaying (loudFrame 500)).1).uiPhase = Phase.listening
    ∧ ((fadeTick^[6]) (vadStep sPlaying (loudFrame 500)).1).resolvedTTS = false
    ∧ (audioEnded true false sPlaying).resolvedTTS = true
    ∧ (audioErrored true false sPlaying).resolvedTTS = true
    ∧ (ttsFailure true false sThinking).resolvedTTS = true
    ∧ (playTTSStart [] sThinking).1.resolvedTTS = true
    ∧ (ttsResponseOk { sThinking with isInterruption := true }).resolvedTTS = true := by
  decide

/-- C2: the spec says `MAX_RECORDING_MS` (12000 ms) forces an
`UtteranceComplete` even without detected silence.  The constant is
declared (with a comment promising a hard cap) but checked nowhere:
thirteen seconds of uninterrupted loud frames produce no event and leave
recording active, exceeding the cap by a second. -/
theorem c2_max_recording_cap_never_enforced :
    (runVAD s0 traceLoud13s).2 = []
    ∧ (runVAD s0 traceLoud13s).1.isRecording = true
    ∧ MAX_RECORDING_MS ≤ 13100 - 100 := by
  decide

/-- C3 counterexample: on a 250 ms burst (loud 100..350) followed by
silence past the 650 ms bound, the claim predicts one
`UtteranceComplete` with duration 250 ≥ `MIN_SPEECH_DURATION` and the
subsequent 100 ms burst discarded as noise, i.e. the event list
`[utteranceComplete 100 350]`.  The code instead emits nothing at the
first bound (the test is strict) and, because `speechStartTime` is never
cleared for a too-short burst, the second burst completes with the stale
start time, producing `[utteranceComplete 100 1300]`. -/
theorem c3_cex_threshold_and_discard :
    (runVAD s0 traceTwoBursts).2 ≠ [VadEvent.utteranceComplete 100 350]
    ∧ (runVAD s0 traceTwoBursts).2 = [VadEvent.utteranceComplete 100 1300]
    ∧ MIN_SPEECH_DURATION ≤ 350 - 100 := by
  decide

/-- C3 amended: the VAD leaves the speech condition only after
`now - lastSpeechTime > SILENCE_DURATION`; on crossing that bound while
recording it emits `UtteranceComplete` if and only if the speech
duration `lastSpeechTime - speechStartTime` strictly exceeds
`MIN_SPEECH_DURATION`, and otherwise leaves the state untouched (no
event, but `speechStartTime` is retained rather than the burst being
discarded).  A sequence loud for 300 ms then silent past the bound
yields exactly one `UtteranceComplete` with duration exactly 300 ms. -/
theorem c3_silence_exit_behaviour :
    (∀ (s : CallState) (f : Frame) (t0 : Nat),
        s.speechStartTime = some t0 → t0 ≠ 0 →
        isSpeakingNow f = false →
        SILENCE_DURATION < f.now - s.lastSpeechTime →
        s.isRecording = true →
        (MIN_SPEECH_DURATION < s.lastSpeechTime - t0 →
            vadStep s f
              = ({ s with speechStartTime := none, isRecording := false },
                 [VadEvent.utteranceComplete t0 s.lastSpeechTime]))
        ∧ (s.lastSpeechTime - t0 ≤ MIN_SPEECH_DURATION → vadStep s f = (s, [])))
    ∧ (runVAD s0 trace300ms).2 = [VadEvent.utteranceComplete 100 400] := by
  constructor
  · intro s f t0 h0 hne hq hsil hrec
    constructor
    · intro hdur
      simp [vadStep, hq, h0, hne, hsil, hrec, hdur]
    · intro hdur
      simp [vadStep, hq, h0, hne, hsil, hrec, Nat.not_lt.mpr hdur]
  · decide

/-- C3 witness: the characterisation applied at a concrete state, a
300 ms utterance completing at the first frame past the silence bound. -/
theorem c3_silence_exit_behaviour_applied :
    vadStep { s0 with speechStartTime := some 100, lastSpeechTime := 400 }
        (quietFrame 1100)
      = ({ { s0 with speechStartTime := some 100, lastSpeechTime := 400 } with
            speechStartTime := none, isRecording := false },
         [VadEvent.utteranceComplete 100 400]) :=
  (c3_silence_exit_behaviour.1
      { s0 with speechStartTime := some 100, lastSpeechTime := 400 }
      (quietFrame 1100) 100 rfl (by decide) (by decide) (by decide) rfl).1
    (by decide)

/-- C4 counterexample: starting from a speaking state with a pending
playback promise and applying only barge-in fade ticks, the phase ends
at listening while the promise is still pending — so the transition came
from the fade path itself, not from the "plan fully played or
interrupted" completion edge (whose handlers always resolve). -/
theorem c4_cex_fade_changes_phase :
    sFading.uiPhase = Phase.speaking
    ∧ ((fadeTick^[6]) sFading).uiPhase = Phase.listening
    ∧ ((fadeTick^[6]) sFading).resolvedTTS = false := by
  decide

/-- C4 amended: whenever a fade tick drives the volume to the 0.1 floor
it itself stops the session and sets the phase to listening, leaving
every other field (in particular the promise flag) unchanged: the phase
change happens directly on the fade path. -/
theorem c4_fade_floor_sets_listening :
    ∀ (s : CallState) (v : Nat), s.audioVolume = some v → v - 15 ≤ 10 →
      fadeTick s = { s with audioVolume := none, uiPhase := Phase.listening } := by
  intro s v hv hle
  simp [fadeTick, hv, hle]

/-- C4 witness: the floor-crossing tick applied at a concrete fading
state of volume 0.25. -/
theorem c4_fade_floor_sets_listening_applied :
    fadeTick { sFading with audioVolume := some 25 }
      = { sFading with audioVolume := none, uiPhase := Phase.listening } :=
  c4_fade_floor_sets_listening { sFading with audioVolume := some 25 } 25 rfl (by decide)

/-- C5 counterexample: the claim says the ramp from volume 1.0 to the
0.1 floor completes in at most 5 steps; after 5 ticks the volume is
0.25, still above the floor, and the session has not been stopped. -/
theorem c5_cex_five_steps_do_not_finish :
    ((fadeTick^[5]) sRamp).audioVolume = some 25
    ∧ ((fadeTick^[5]) sRamp).uiPhase = Phase.speaking := by
  decide

/-- C5 amended: from volume 1.0 the fade decreases the volume by the
fixed 0.15 step on every 50 ms tick (1.0, 0.85, 0.70, 0.55, 0.40, 0.25)
until it is at or below the 0.1 floor, which happens exactly at the
sixth step, at which point playback is stopped and the session
released. -/
theorem c5_fade_ramp_exactly_six_steps :
    ((fadeTick^[1]) sRamp).audioVolume = some 85
    ∧ ((fadeTick^[2]) sRamp).audioVolume = some 70
    ∧ ((fadeTick^[3]) sRamp).audioVolume = some 55
    ∧ ((fadeTick^[4]) sRamp).audioVolume = some 40
    ∧ ((fadeTick^[5]) sRamp).audioVolume = some 25
    ∧ ((fadeTick^[6]) sRamp).audioVolume = none
    ∧ ((fadeTick^[6]) sRamp).uiPhase = Phase.listening := by
  decide

/-- C6 counterexample: `planSpeech` applied to the empty text (with no
filler drawn) returns zero segments, refuting "at least one segment";
and for the example input the segment texts are trimmed, so their plain
concatenation is "Hello,how are you?", which does not reconstruct the
cleaned spoken text "Hello, how are you?". -/
theorem c6_cex_segments_and_concatenation :
    (planSpeech [] ("neutral".toList) rz).segments = []
    ∧ ((planSpeech helloText ("neutral".toList) rz).segments.map Segment.text).flatten
        ≠ (planSpeech helloText ("neutral".toList) rz).spokenText := by
  decide

/-- C6 amended: whenever the spoken text (after cleaning and optional
filler injection) contains a non-whitespace character, `planSpeech`
returns at least one segment; and for the example,
`planSpeech("Hello, how are you?", "neutral")` without filler produces
the segments "Hello," (300 ms short pause, pace 0.95) and
"how are you?" (600 ms long pause after the final segment, pace 1.05),
whose texts joined with single spaces reconstruct the input, the spoken
text being the input itself. -/
theorem c6_segments_nonempty_and_example :
    (∀ (t e : Str) (r : Nat → Nat) (c : Char),
        c ∈ (planSpeech t e r).spokenText → nonWs c = true →
        (planSpeech t e r).segments ≠ [])
    ∧ (planSpeech helloText ("neutral".toList) rz).segments =
        [{ text := "Hello,".toList, pauseAfterMs := 300, pace := getPace 0 },
         { text := "how are you?".toList, pauseAfterMs := 600, pace := getPace 1 }]
    ∧ joinSpace ((planSpeech helloText ("neutral".toList) rz).segments.map Segment.text)
        = helloText
    ∧ (planSpeech helloText ("neutral".toList) rz).spokenText = helloText := by
  refine ⟨?_, by decide, by decide, by decide⟩
  intro t e r c hc hw
  simp only [planSpeech] at hc ⊢
  obtain ⟨piece, hpm, d, hd, hdw⟩ :=
    splitGoM_has_nonWs _ none [] (Or.inr (Or.inl ⟨c, hc, hw⟩))
  refine segLoop_ne_nil _ [] 0 (Or.inl ⟨piece, ?_, d, hd, hdw⟩)
  refine List.mem_filter.mpr ⟨hpm, ?_⟩
  have hne : trim piece ≠ [] := trim_ne_nil_of_nonWs hd hdw
  simpa using List.length_pos.mpr hne

/-- C6 witness: a concrete input with a visible character yields a
nonempty segment list. -/
theorem c6_segments_nonempty_applied :
    (planSpeech ("Hi".toList) ("neutral".toList) rz).segments ≠ [] :=
  c6_segments_nonempty_and_example.1 ("Hi".toList) ("neutral".toList) rz 'H'
    (by decide) (by decide)

/-- C7: `planSpeech` is a pure function of the text, the emotion and the
random draw stream; two runs whose streams agree on the two draws it can
consume (the filler decision and the filler index) produce identical
speech plans. -/
theorem c7_planSpeech_deterministic :
    ∀ (text emotion : Str) (r r2 : Nat → Nat),
      r 0 = r2 0 → r 1 = r2 1 →
      planSpeech text emotion r = planSpeech text emotion r2 := by
  intro t e r r2 h0 h1
  simp only [planSpeech, h0, h1]

/-- C7 witness: two different draw streams agreeing on draws 0 and 1
give the same plan. -/
theorem c7_planSpeech_deterministic_applied :
    planSpeech ("Hi".toList) ("playful".toList) (fun n => n)
      = planSpeech ("Hi".toList) ("playful".toList)
          (fun n => if n = 0 then 0 else if n = 1 then 1 else 7) :=
  c7_planSpeech_deterministic ("Hi".toList) ("playful".toList) _ _ rfl rfl

/-- C8: a missing transcription result, or one with fewer than two
non-whitespace characters, is discarded locally: the phase returns to
listening, the processing flag is cleared, no user message is appended
to the transcript and no response generation is invoked.  The counting
condition is equivalent to the code test `text.trim().length < 2`
because a trimmed string of length two or more starts and ends with
visible characters. -/
theorem c8_short_transcription_discarded :
    (∀ (s : TurnState),
        processSTT none s
          = ({ s with uiPhase := Phase.listening, isProcessing := false }, false))
    ∧ (∀ (t : Str) (s : TurnState), t.countP nonWs < 2 →
        processSTT (some t) s
          = ({ s with uiPhase := Phase.listening, isProcessing := false }, false)) := by
  constructor
  · intro s
    simp [processSTT, sttTooShort]
  · intro t s hcount
    have hlen : (trim t).length < 2 := by
      by_contra hge
      exact absurd (two_le_countP_of_trim (Nat.not_lt.mp hge)) (Nat.not_le.mpr hcount)
    simp [processSTT, sttTooShort, hlen]

/-- C8 witness: a one-character transcription is discarded. -/
theorem c8_short_transcription_discarded_applied :
    processSTT (some ("a".toList))
        { uiPhase := Phase.transcribing, transcript := [], isProcessing := true }
      = ({ uiPhase := Phase.listening, transcript := [], isProcessing := false }, false) :=
  c8_short_transcription_discarded.2 ("a".toList)
    { uiPhase := Phase.transcribing, transcript := [], isProcessing := true }
    (by decide)

/-- C9: the turn-end update sets the familiarity score to
`min(1, old + 0.02)` and the attachment level to `min(1, old + 0.01)`;
for any persisted state within the database CHECK bound (both columns
are kept in [0,1]) the two scalars are non-decreasing and never exceed
one. -/
theorem c9_emotional_update_monotone_bounded :
    ∀ (st : EmotionalState) (d : Option Str),
      st.familiarity_score ≤ 1 → st.attachment_level ≤ 1 →
      (updateEmotionalState st d).familiarity_score
          = min 1 (st.familiarity_score + 2/100)
      ∧ (updateEmotionalState st d).attachment_level
          = min 1 (st.attachment_level + 1/100)
      ∧ st.familiarity_score ≤ (updateEmotionalState st d).familiarity_score
      ∧ (updateEmotionalState st d).familiarity_score ≤ 1
      ∧ st.attachment_level ≤ (updateEmotionalState st d).attachment_level
      ∧ (updateEmotionalState st d).attachment_level ≤ 1 := by
  intro st d hf ha
  refine ⟨rfl, rfl, ?_, min_le_left _ _, ?_, min_le_left _ _⟩
  · exact le_min hf (le_add_of_nonneg_right (by norm_num))
  · exact le_min ha (le_add_of_nonneg_right (by norm_num))

/-- C9 witness: the update applied at the database default row
(familiarity 0.1, attachment 0.3). -/
theorem c9_emotional_update_monotone_bounded_applied :
    st9.familiarity_score ≤ (updateEmotionalState st9 none).familiarity_score
    ∧ (updateEmotionalState st9 none).familiarity_score ≤ 1
    ∧ st9.attachment_level ≤ (updateEmotionalState st9 none).attachment_level
    ∧ (updateEmotionalState st9 none).attachment_level ≤ 1 := by
  have h := c9_emotional_update_monotone_bounded st9 none
    (by norm_num [st9]) (by norm_num [st9])
  exact ⟨h.2.2.1, h.2.2.2.1, h.2.2.2.2.1, h.2.2.2.2.2⟩

/-- C10: a `playTTS` call on empty or whitespace-only text resolves
immediately: the state is unchanged apart from the resolution flag (no
audio element is created, the phase is untouched) and no TTS request is
issued. -/
theorem c10_whitespace_text_resolves_immediately :
    ∀ (text : Str) (s : CallState), (∀ c ∈ text, ws c = true) →
      playTTSStart text s = ({ s with resolvedTTS := true }, false) := by
  intro text s h
  simp [playTTSStart, trim_eq_nil_iff.mpr h]

/-- C10 witness: two spaces resolve immediately with no request. -/
theorem c10_whitespace_text_resolves_immediately_applied :
    playTTSStart ("  ".toList) sThinking
      = ({ sThinking with resolvedTTS := true }, false) :=
  c10_whitespace_text_resolves_immediately ("  ".toList) sThinking (by decide)

end Aura
